import Mathlib

/-!
Verification development for the `ckparser` module of the `ckdatabase`
repository (file `database/ckparser.py`).

The Python module is shallowly embedded as executable Lean definitions:

* `PVal` models the Python values the parser builds (`None`, `bool`, `int`,
  `float`, `str`, `dict`, `list`).  Python `dict`s are insertion-ordered, so
  they are modelled as association lists whose update operation keeps the
  position of an existing key and appends new keys at the end.  Python
  `float`s are modelled as exact rationals (`ℚ`); every floating-point value
  manipulated by the theorems below is a small decimal for which IEEE-754
  double arithmetic is exact, so the model agrees with the code there.
* The regex-substitution passes of `parse_text` (lines 92-118 of the source)
  are implemented as character-list scanners that follow the exact
  backtracking semantics of the Python `re` patterns; each definition's
  doc comment quotes the pattern it implements.
* The stateful line loop of `parse_text` (lines 120-310) is implemented as a
  step function over an explicit stack of frames.  Python mutates containers
  through aliases held by the stack; the model instead records, in each
  frame, exactly how the finished container is written back into its parent
  when the frame is popped, reproducing the aliasing behaviour.
* The global mutable `variables` table is threaded through the definitions
  as explicit state, and the module-level configuration tuple
  `forced_list_keys` is passed as a parameter (its value in the source is
  the empty tuple, available as the constant `forced_list_keys` below).
-/

namespace CKParser

/-- Model of the Python values produced by `parse_text`:
`None`, `bool`, `int`, `float` (modelled as an exact rational), `str`,
insertion-ordered `dict` with string keys, and `list`. -/
inductive PVal where
  | vnone : PVal
  | vbool : Bool → PVal
  | vint : Int → PVal
  | vfloat : ℚ → PVal
  | vstr : String → PVal
  | vdict : List (String × PVal) → PVal
  | vlist : List PVal → PVal
deriving Repr

/-- Numeric view used by Python `==`: `bool`, `int` and `float` compare by
numeric value (`True == 1`, `1 == 1.0`). -/
def PVal.asNum : PVal → Option ℚ
  | .vbool b => some (if b then 1 else 0)
  | .vint n => some (n : ℚ)
  | .vfloat q => some q
  | _ => none

mutual

/-- Model of Python `==` on the values above: numeric types compare by
value, strings by content, lists elementwise, dicts as unordered key/value
maps. -/
def pyEq : PVal → PVal → Bool
  | .vlist xs, .vlist ys => pyEqList xs ys
  | .vdict xs, .vdict ys => xs.length == ys.length && pyEqDict xs ys
  | a, b =>
    match a.asNum, b.asNum with
    | some x, some y => x == y
    | _, _ =>
      match a, b with
      | .vnone, .vnone => true
      | .vstr s, .vstr t => s == t
      | _, _ => false

def pyEqList : List PVal → List PVal → Bool
  | [], [] => true
  | x :: xs, y :: ys => pyEq x y && pyEqList xs ys
  | _, _ => false

def pyEqDict : List (String × PVal) → List (String × PVal) → Bool
  | [], _ => true
  | (k, v) :: xs, ys =>
    match ys.find? (fun kv => kv.1 == k) with
    | some kv => pyEq v kv.2 && pyEqDict xs ys
    | none => false

end

/-- Model of Python truthiness (`bool(x)`). -/
def pyTruthy : PVal → Bool
  | .vnone => false
  | .vbool b => b
  | .vint n => n != 0
  | .vfloat q => q != 0
  | .vstr s => s != ""
  | .vdict es => !es.isEmpty
  | .vlist xs => !xs.isEmpty

/-- `d[k]` lookup for the ordered-dict model. -/
def dictGet (es : List (String × PVal)) (k : String) : Option PVal :=
  (es.find? (fun kv => kv.1 == k)).map (·.2)

/-- `d[k] = v` for the ordered-dict model: an existing key keeps its
position, a new key is appended (Python `dict` insertion order). -/
def dictSet (es : List (String × PVal)) (k : String) (v : PVal) :
    List (String × PVal) :=
  match es with
  | [] => [(k, v)]
  | (k', v') :: rest =>
    if k' == k then (k', v) :: rest else (k', v') :: dictSet rest k v

/-- `k in d` for the ordered-dict model. -/
def dictHasKey (es : List (String × PVal)) (k : String) : Bool :=
  es.any (fun kv => kv.1 == k)

/-- The global variable table (`variables` in the source), keyed by
variable name; insertion-ordered like the Python `dict`. -/
abbrev VarTable := List (String × PVal)

/-! ## Character and string utilities (Python semantics) -/

/-- Model of Python's `\s` / `str.strip` whitespace for ASCII text:
space, tab, newline, carriage return, vertical tab, form feed. -/
def pyIsSpace (c : Char) : Bool :=
  c == ' ' || c == '\t' || c == '\n' || c == '\r' ||
    c == Char.ofNat 11 || c == Char.ofNat 12

/-- Model of the regex class `\w` for ASCII text. -/
def pyIsWord (c : Char) : Bool :=
  c.isAlpha || c.isDigit || c == '_'

/-- The left-brace character (written by code point to keep string
literals free of structural braces). -/
def lbrace : Char := Char.ofNat 123

/-- The right-brace character. -/
def rbrace : Char := Char.ofNat 125

/-- The double-quote character. -/
def dquote : Char := '"'

/-- The single-quote character (written by code point). -/
def squote : Char := Char.ofNat 39

/-- Python `str.startswith` (kernel-reducible form). -/
def pyStartsWith (s pre : String) : Bool := pre.data.isPrefixOf s.data

/-- Python `str.endswith` (kernel-reducible form). -/
def pyEndsWith (s suf : String) : Bool := suf.data.isSuffixOf s.data

/-- Python `str.lower()` for ASCII text (kernel-reducible form). -/
def pyLower (s : String) : String := String.mk (s.data.map Char.toLower)

/-- Python `str.strip()` on a character list. -/
def stripWs (cs : List Char) : List Char :=
  ((cs.dropWhile pyIsSpace).reverse.dropWhile pyIsSpace).reverse

/-- Python `str.lstrip(chars)`: drop leading characters belonging to the
given set. -/
def lstripSet (set : List Char) (cs : List Char) : List Char :=
  cs.dropWhile (fun c => set.contains c)

/-- Python `str.rstrip(chars)`. -/
def rstripSet (set : List Char) (cs : List Char) : List Char :=
  (cs.reverse.dropWhile (fun c => set.contains c)).reverse

/-- Worker for `replaceAll` with a non-empty pattern `o :: os`.  The fuel
argument bounds the recursion depth so the definition is structural (and
therefore kernel-reducible); every step consumes at least one input
character, so fuel equal to the input length always suffices. -/
def replaceAllAux (o : Char) (os new : List Char) : Nat → List Char → List Char
  | _, [] => []
  | 0, cs => cs
  | fuel + 1, c :: rest =>
    if o == c && os.isPrefixOf rest then
      new ++ replaceAllAux o os new fuel (rest.drop os.length)
    else
      c :: replaceAllAux o os new fuel rest

/-- Python `str.replace(old, new)` (all non-overlapping occurrences, left
to right); every use site passes a non-empty `old`. -/
def replaceAll (old new cs : List Char) : List Char :=
  match old with
  | [] => cs
  | o :: os => replaceAllAux o os new cs.length cs

/-- Python `str.replace(old, new, 1)` (first occurrence only). -/
def replaceFirst (old new cs : List Char) : List Char :=
  match cs with
  | [] => []
  | c :: rest =>
    if old.isPrefixOf cs then new ++ cs.drop old.length
    else c :: replaceFirst old new rest

/-- Python `str.splitlines()` restricted to `'\n'` separators (the only
line separator occurring in the texts this development manipulates). -/
def splitlinesLC : List Char → List (List Char)
  | [] => []
  | c :: rest =>
    if c == '\n' then [] :: splitlinesLC rest
    else
      match splitlinesLC rest with
      | [] => [[c]]
      | l :: ls => (c :: l) :: ls

/-! ## Literal parsing, rounding, and formula evaluation -/

/-- Parse a decimal integer literal, Python style: optional sign, then
either `0` or a nonzero digit followed by digits (leading zeros are a
syntax error for `int` literals). -/
def parseIntLit (cs : List Char) : Option Int :=
  let p : Bool × List Char :=
    match cs with
    | c :: rest =>
      if c == '-' then (true, rest)
      else if c == '+' then (false, rest)
      else (false, c :: rest)
    | [] => (false, [])
  match p.2 with
  | [] => none
  | d :: tail =>
    if d == '0' then (if tail.isEmpty then some 0 else none)
    else if (d :: tail).all Char.isDigit then
      let n : Int := (d :: tail).foldl (fun acc c => acc * 10 + (c.toNat - '0'.toNat : Int)) 0
      some (if p.1 then -n else n)
    else none

/-- Digits to a natural number (most significant first). -/
def digitsToNat (ds : List Char) : Nat :=
  ds.foldl (fun acc c => acc * 10 + (c.toNat - '0'.toNat)) 0

/-- Decimal digits of a natural number, most significant first
(fuel-structured; `n` itself always suffices as fuel since `n / 10 < n`
for positive `n`). -/
def natDigitsGo : Nat → Nat → List Char → List Char
  | _, 0, acc => acc
  | 0, _, acc => acc
  | fuel + 1, n, acc => natDigitsGo fuel (n / 10) (Char.ofNat (48 + n % 10) :: acc)

/-- Python `str()` of a non-negative integer. -/
def natStr (n : Nat) : List Char :=
  if n == 0 then ['0'] else natDigitsGo n n []

/-- Python `str()` of an integer: decimal digits with a `-` sign for
negative values. -/
def intStr (n : Int) : String :=
  match n with
  | .ofNat m => String.mk (natStr m)
  | .negSucc m => String.mk ('-' :: natStr (m + 1))

/-- Parse a decimal float literal, Python style: optional sign, digits with
a single decimal point (`1.`, `.5`, `12.34`; leading zeros are allowed in
float literals).  Exponent forms are not modelled; no theorem below feeds
one to this function. -/
def parseFloatLit (cs : List Char) : Option ℚ :=
  let p : Bool × List Char :=
    match cs with
    | c :: rest =>
      if c == '-' then (true, rest)
      else if c == '+' then (false, rest)
      else (false, c :: rest)
    | [] => (false, [])
  let intPart := p.2.takeWhile Char.isDigit
  match p.2.drop intPart.length with
  | c :: frac =>
    if c == '.' then
      if frac.all Char.isDigit && (intPart.length + frac.length > 0) then
        let q : ℚ := (digitsToNat intPart : ℚ) +
          (digitsToNat frac : ℚ) / ((10 : ℚ) ^ frac.length)
        some (if p.1 then -q else q)
      else none
    else none
  | [] => none

/-- Model of `ast.literal_eval` on the literal forms the parser can feed
it after canonicalization: booleans, `None`, decimal `int`/`float`
literals, and simple quoted strings.  Any other input raises in Python and
yields `none` here (`parse_text` catches the exception and keeps the raw
string). -/
def literal_eval (s : String) : Option PVal :=
  let cs := stripWs s.data
  if cs == "True".data then some (.vbool true)
  else if cs == "False".data then some (.vbool false)
  else if cs == "None".data then some .vnone
  else
    match parseIntLit cs with
    | some n => some (.vint n)
    | none =>
      match parseFloatLit cs with
      | some q => some (.vfloat q)
      | none =>
        match cs with
        | q :: rest =>
          if (q == dquote || q == squote) && rest.length ≥ 1 then
            match rest.getLast? with
            | some q' =>
              if q' == q && (rest.dropLast.all (fun c => c != q && c != '\\'))
              then some (.vstr (String.mk rest.dropLast))
              else none
            | none => none
          else none
        | [] => none

/-- Python `round` to the nearest integer (round-half-to-even). -/
def roundHalfEven (q : ℚ) : Int :=
  let f := ⌊q⌋
  let r := q - f
  if r < 1 / 2 then f
  else if r > 1 / 2 then f + 1
  else if f % 2 == 0 then f else f + 1

/-- `round(x, 5)` from lines 188-189 and 212-213 of the source, on the
exact-rational model of floats. -/
def round5 (q : ℚ) : ℚ := (roundHalfEven (q * 100000) : ℚ) / 100000

/-- Decimal rendering of a rational whose denominator divides a power of
ten, with at least one fractional digit (as Python prints floats like
`5.0`); used only by `pyStr` below. -/
def floatStr (q : ℚ) : String :=
  let sign := if q < 0 then "-" else ""
  let a := |q|
  let k := (List.range 18).find? (fun k => ((a * 10 ^ (k + 1)).den == 1))
  match k with
  | some k =>
    let scaled := (a * 10 ^ (k + 1)).num.toNat
    let digits := toString scaled
    let digits :=
      if digits.length ≤ k + 1 then
        String.mk (List.replicate (k + 2 - digits.length) '0') ++ digits
      else digits
    sign ++ digits.take (digits.length - (k + 1)) ++ "." ++
      digits.drop (digits.length - (k + 1))
  | none => sign ++ toString a

/-- Model of Python `str()` on the scalar values that can reach the
variable-substitution loop (the table only ever stores scalars). -/
def pyStr : PVal → String
  | .vnone => "None"
  | .vbool b => if b then "True" else "False"
  | .vint n => intStr n
  | .vfloat q => floatStr q
  | .vstr s => s
  | .vdict _ => "<dict>"
  | .vlist _ => "<list>"

/-- One variable substitution from lines 181-182 / 205-206 of the source:
`re.sub(rf"\b{var_name}\b", str(var_value), formula)`.  Matches every
occurrence of `name` delimited by word boundaries; faithful for the
word-character variable names that arise from `@`-keys. -/
def wholeWordSubGo (n : Char) (ns repl : List Char) :
    Nat → Option Char → List Char → List Char
  | _, _, [] => []
  | 0, _, cs => cs
  | fuel + 1, prev, c :: rest =>
    let boundaryL : Bool := match prev with
      | none => true
      | some p => !pyIsWord p
    let after := (c :: rest).drop (n :: ns).length
    let boundaryR : Bool := match after with
      | [] => true
      | a :: _ => !pyIsWord a
    if (n :: ns).isPrefixOf (c :: rest) && boundaryL && boundaryR then
      repl ++ wholeWordSubGo n ns repl fuel (some ((n :: ns).getLast (by simp))) after
    else
      c :: wholeWordSubGo n ns repl fuel (some c) rest

def wholeWordSub (name repl : List Char) (cs : List Char) : List Char :=
  match name with
  | [] => cs
  | n :: ns => wholeWordSubGo n ns repl cs.length none cs

/-- The substitution loop of lines 181-182 / 205-206: substitute every
known variable, in table order. -/
def substVariables (vars : VarTable) (formula : List Char) : List Char :=
  vars.foldl (fun f kv => wholeWordSub kv.1.data (pyStr kv.2).data f) formula

/-! ### Model of `eval(formula, None, variables)` (line 184 / 208)

The source evaluates formulas with Python's `eval`, passing the variable
table as locals and `None` as globals — so names resolve through the
variable table, then the module's globals, then the builtins.  The model
below covers the expression fragment exercised here: decimal literals,
names, unary minus, `+ - * /`, parentheses, and unary builtin calls
(`abs`), with Python's numeric promotion (`bool` counts as an integer,
`/` always produces a float, division by zero raises). -/

inductive ETok where
  | num : PVal → ETok
  | ident : String → ETok
  | op : Char → ETok
deriving Repr

/-- `span` with an explicit recursion the termination lemmas below can
follow: returns (longest matching run, remaining suffix). -/
def spanP (p : Char → Bool) : List Char → List Char × List Char
  | [] => ([], [])
  | c :: rest =>
    if p c then
      let (t, d) := spanP p rest
      (c :: t, d)
    else ([], c :: rest)

theorem spanP_snd_le (p : Char → Bool) :
    ∀ cs : List Char, ((spanP p cs).2).length ≤ cs.length := by
  intro cs
  induction cs with
  | nil => simp [spanP]
  | cons c rest ih =>
    by_cases h : p c
    · simp [spanP, h]
      omega
    · simp [spanP, h]

theorem spanP_snd_lt (p : Char → Bool) (c : Char) (rest : List Char)
    (h : p c = true) :
    ((spanP p (c :: rest)).2).length < (c :: rest).length := by
  have := spanP_snd_le p rest
  simp [spanP, h]
  omega

/-- Tokenizer for the expression fragment (fuel-structured for kernel
reducibility; the input length always suffices). -/
def etokenize : Nat → List Char → Option (List ETok)
  | _, [] => some []
  | 0, _ => none
  | fuel + 1, c :: rest =>
    if pyIsSpace c then etokenize fuel rest
    else if c.isDigit || (c == '.' && (rest.head?.map Char.isDigit).getD false) then
      let ds := (spanP (fun d => d.isDigit || d == '.') (c :: rest)).1
      let tok :=
        match parseIntLit ds with
        | some n => some (ETok.num (.vint n))
        | none =>
          -- Leading zeros are legal in this position ("007" tokenizes as 7).
          if ds.all Char.isDigit && ds ≠ [] then
            some (ETok.num (.vint (digitsToNat ds)))
          else
            (parseFloatLit ds).map (fun q => ETok.num (.vfloat q))
      match tok with
      | some t =>
        (etokenize fuel (spanP (fun d => d.isDigit || d == '.') (c :: rest)).2).map (t :: ·)
      | none => none
    else if pyIsWord c then
      (etokenize fuel (spanP pyIsWord (c :: rest)).2).map
        (ETok.ident (String.mk (spanP pyIsWord (c :: rest)).1) :: ·)
    else if c == '+' || c == '-' || c == '*' || c == '/' || c == '(' || c == ')' then
      (etokenize fuel rest).map (ETok.op c :: ·)
    else none

/-- Python `int`-like view (`bool` participates in integer arithmetic). -/
def PVal.asIntish : PVal → Option Int
  | .vbool b => some (if b then 1 else 0)
  | .vint n => some n
  | _ => none

/-- Python binary arithmetic on numbers: integer kinds give an `int`,
any `float` operand gives a `float`; non-numeric operands raise
(`none`). -/
def pyArith (fi : Int → Int → Int) (fq : ℚ → ℚ → ℚ) (a b : PVal) : Option PVal :=
  match a.asIntish, b.asIntish with
  | some x, some y => some (.vint (fi x y))
  | _, _ =>
    match a.asNum, b.asNum with
    | some x, some y => some (.vfloat (fq x y))
    | _, _ => none

/-- Python `/`: always a float; division by zero raises (`none`). -/
def pyDiv (a b : PVal) : Option PVal :=
  match a.asNum, b.asNum with
  | some x, some y => if y == 0 then none else some (.vfloat (x / y))
  | _, _ => none

/-- Python unary minus on numbers. -/
def pyNeg (a : PVal) : Option PVal :=
  match a.asIntish with
  | some x => some (.vint (-x))
  | none =>
    match a.asNum with
    | some q => some (.vfloat (-q))
    | none => none

/-- Python `abs` builtin on numbers. -/
def pyAbs (a : PVal) : Option PVal :=
  match a.asIntish with
  | some x => some (.vint |x|)
  | none =>
    match a.asNum with
    | some q => some (.vfloat |q|)
    | none => none

mutual

/-- `expr := term (("+" | "-") term)*` — parse-and-evaluate. -/
def eExpr : Nat → VarTable → List ETok → Option (PVal × List ETok)
  | 0, _, _ => none
  | fuel + 1, vars, ts =>
    match eTerm fuel vars ts with
    | none => none
    | some (v, ts') => eExprLoop fuel vars v ts'

def eExprLoop : Nat → VarTable → PVal → List ETok → Option (PVal × List ETok)
  | 0, _, _, _ => none
  | fuel + 1, vars, v, ts =>
    match ts with
    | .op '+' :: rest =>
      match eTerm fuel vars rest with
      | none => none
      | some (w, ts') =>
        match pyArith (· + ·) (· + ·) v w with
        | none => none
        | some u => eExprLoop fuel vars u ts'
    | .op '-' :: rest =>
      match eTerm fuel vars rest with
      | none => none
      | some (w, ts') =>
        match pyArith (· - ·) (· - ·) v w with
        | none => none
        | some u => eExprLoop fuel vars u ts'
    | _ => some (v, ts)

/-- `term := factor (("*" | "/") factor)*`. -/
def eTerm : Nat → VarTable → List ETok → Option (PVal × List ETok)
  | 0, _, _ => none
  | fuel + 1, vars, ts =>
    match eFactor fuel vars ts with
    | none => none
    | some (v, ts') => eTermLoop fuel vars v ts'

def eTermLoop : Nat → VarTable → PVal → List ETok → Option (PVal × List ETok)
  | 0, _, _, _ => none
  | fuel + 1, vars, v, ts =>
    match ts with
    | .op '*' :: rest =>
      match eFactor fuel vars rest with
      | none => none
      | some (w, ts') =>
        match pyArith (· * ·) (· * ·) v w with
        | none => none
        | some u => eTermLoop fuel vars u ts'
    | .op '/' :: rest =>
      match eFactor fuel vars rest with
      | none => none
      | some (w, ts') =>
        match pyDiv v w with
        | none => none
        | some u => eTermLoop fuel vars u ts'
    | _ => some (v, ts)

/-- `factor := ("-" | "+") factor | literal | name | name "(" expr ")" |
"(" expr ")"`.  Names resolve through the locals (the variable table)
first and then the enclosing environment of the `eval` call — the module's
globals and the Python builtins; the builtin `abs` is the representative
host function in this model.  An unresolvable name raises `NameError`
(`none`). -/
def eFactor : Nat → VarTable → List ETok → Option (PVal × List ETok)
  | 0, _, _ => none
  | fuel + 1, vars, ts =>
    match ts with
    | .op '-' :: rest =>
      match eFactor fuel vars rest with
      | none => none
      | some (v, ts') =>
        match pyNeg v with
        | none => none
        | some u => some (u, ts')
    | .op '+' :: rest => eFactor fuel vars rest
    | .num v :: rest => some (v, rest)
    | .ident name :: .op '(' :: rest =>
      match eExpr fuel vars rest with
      | none => none
      | some (arg, ts') =>
        match ts' with
        | .op ')' :: ts'' =>
          if dictHasKey vars name then
            -- A local shadows the builtin; table values are not callable.
            none
          else if name == "abs" then
            match pyAbs arg with
            | none => none
            | some u => some (u, ts'')
          else none
        | _ => none
    | .ident name :: rest =>
      match dictGet vars name with
      | some v => some (v, rest)
      | none => none
    | .op '(' :: rest =>
      match eExpr fuel vars rest with
      | none => none
      | some (v, ts') =>
        match ts' with
        | .op ')' :: ts'' => some (v, ts'')
        | _ => none
    | _ => none

end

/-- Model of `eval(expr, None, variables)` (lines 184 and 208 of the
source) on the arithmetic expression fragment: tokenize, parse, and
evaluate; any syntax error, unresolvable name, non-numeric operation or
division by zero gives `none` (the Python exception caught by the
caller). -/
def py_eval (vars : VarTable) (s : String) : Option PVal :=
  match etokenize s.data.length s.data with
  | none => none
  | some ts =>
    match eExpr (3 * ts.length + 9) vars ts with
    | some (v, []) => some v
    | _ => none

/-- Lines 204-213 (and identically 180-189) of the source: strip the
`@[` / `]` decoration, substitute every known variable as a whole word,
evaluate, and round float results to 5 decimal places.  `none` is the
`result = None` failure case. -/
def resolveFormula (vars : VarTable) (value : String) : Option PVal :=
  let formula := String.mk (rstripSet [']'] (lstripSet ['@', '['] value.data))
  let substituted := String.mk (substVariables vars formula.data)
  match py_eval vars substituted with
  | some (.vfloat q) => some (.vfloat (round5 q))
  | r => r

/-- The `"@type": "formula"` node stored by lines 190-194 / 214-218. -/
def formulaNode (value : String) (result : Option PVal) : PVal :=
  .vdict [("@type", .vstr "formula"), ("@value", .vstr value),
          ("@result", result.getD .vnone)]

/-- The `"@type": "variable"` node stored by lines 195-200 / 222-227 /
228-234 / 290-297. -/
def variableNode (vars : VarTable) (value : String) : PVal :=
  .vdict [("@type", .vstr "variable"), ("@value", .vstr value),
          ("@result", (dictGet vars (String.mk (lstripSet ['@'] value.data))).getD .vnone)]

/-! ## Module constants (lines 21-30 of the source) -/

/-- `booleans = {"yes": True, "no": False}`. -/
def booleans : List (String × PVal) := [("yes", .vbool true), ("no", .vbool false)]

/-- `forced_list_keys` — the tuple at lines 24-26 of the source; all its
entries are commented out, so its value is the empty tuple.  The parser
definitions below take the allow-list as a parameter so that properties
about the (configuration-dependent) forced-list mechanism can be stated;
this constant is the source's actual configuration. -/
def forced_list_keys : List String := []

/-- `keywords = ("scripted_trigger", "scripted_effect")`. -/
def keywords : List String := ["scripted_trigger", "scripted_effect"]

/-! ## `regex_line` and `regex_item` -/

/-- Character class `[^\s\"]` (key characters of `regex_line`). -/
def isKeyChar (c : Char) : Bool := !pyIsSpace c && c != dquote

/-- Character class `[!<=>]` (operator characters of `regex_line`). -/
def isOpChar (c : Char) : Bool := c == '!' || c == '<' || c == '=' || c == '>'

/-- One attempt of `regex_line` continuation for a fixed key length:
optional closing quote (preferred), `\s*`, `[!<=>]+` (greedy), `\s*`,
optional literal `list` followed by `\s*` (preferred), then `.*` as the
value. -/
def regexLineAfterKey (rest1 : List Char) : Option (String × String) :=
  let attempt := fun (rest2 : List Char) =>
    let rest3 := rest2.dropWhile pyIsSpace
    let ops := (spanP isOpChar rest3).1
    if ops.isEmpty then none
    else
      let rest4 := (spanP isOpChar rest3).2.dropWhile pyIsSpace
      let rest5 :=
        if "list".data.isPrefixOf rest4 then (rest4.drop 4).dropWhile pyIsSpace
        else rest4
      some (String.mk ops, String.mk rest5)
  match rest1 with
  | q :: rest2 =>
    if q == dquote then
      match attempt rest2 with
      | some r => some r
      | none => attempt rest1
    else attempt rest1
  | [] => attempt rest1

/-- Try key lengths from `kl` down to 1 (the greedy, backtracking search
of `(?P<key>[^\s\"]+)`). -/
def regexLineKeyLens (afterLead : List Char) : Nat → Option (String × String × String)
  | 0 => none
  | kl + 1 =>
    match regexLineAfterKey (afterLead.drop (kl + 1)) with
    | some (op, value) => some (String.mk (afterLead.take (kl + 1)), op, value)
    | none => regexLineKeyLens afterLead kl

/-- `regex_line.fullmatch` (pattern at line 49 of the source):
`\"?(?P<key>[^\s\"]+)\"?\s*(?P<operator>[!<=>]+)\s*(list\s*)?(?P<value>.*)`,
returning the `key`, `operator` and `value` groups.  The optional leading
quote is preferred when present, the key is matched greedily with
backtracking, and the `list` marker is consumed and discarded exactly as
the caller discards the third group. -/
def regexLineFullmatch (line : String) : Option (String × String × String) :=
  let cs := line.data
  let withLead := fun (afterLead : List Char) =>
    let keyRun := (spanP isKeyChar afterLead).1
    regexLineKeyLens afterLead keyRun.length
  match cs with
  | q :: rest =>
    if q == dquote then
      match withLead rest with
      | some r => some r
      | none => withLead cs
    else withLead cs
  | [] => none

/-- `regex_item.findall` (pattern at line 51 of the source):
`(\"[^\"]+\"|[\d\.]+|[^\s]+)` — at each position the quoted form is
preferred, then a digits-and-dots run, then a maximal non-space run.
Fuel-structured; the input length always suffices. -/
def findItemsF : Nat → List Char → List String
  | _, [] => []
  | 0, _ => []
  | fuel + 1, c :: rest =>
    if c == dquote then
      let interior := (spanP (fun d => d != dquote) rest).1
      let after := (spanP (fun d => d != dquote) rest).2
      if interior.isEmpty || after.isEmpty then
        -- `\"[^\"]+\"` needs a non-empty interior and a closing quote;
        -- otherwise fall back to `[^\s]+`.
        String.mk (spanP (fun d => !pyIsSpace d) (c :: rest)).1 ::
          findItemsF fuel (spanP (fun d => !pyIsSpace d) (c :: rest)).2
      else
        String.mk (dquote :: interior ++ after.take 1) :: findItemsF fuel (after.drop 1)
    else if c.isDigit || c == '.' then
      String.mk (spanP (fun d => d.isDigit || d == '.') (c :: rest)).1 ::
        findItemsF fuel (spanP (fun d => d.isDigit || d == '.') (c :: rest)).2
    else if !pyIsSpace c then
      String.mk (spanP (fun d => !pyIsSpace d) (c :: rest)).1 ::
        findItemsF fuel (spanP (fun d => !pyIsSpace d) (c :: rest)).2
    else
      findItemsF fuel rest

def findItems (cs : List Char) : List String := findItemsF cs.length cs

/-! ## The stateful line loop (lines 120-310 of the source)

Python's `nodes` stack holds `(name, container)` pairs aliasing positions
inside the document under construction.  The model's frames additionally
record how the finished container is written back into the parent when the
frame is popped (`InsMode`), reproducing the in-place mutations:

* `assignKey k` — `node[k] = item` (line 146, and rebindings from the
  list-coercion block at lines 260-280);
* `appendKey k` — the duplicate-block path (lines 136-139): the parent's
  entry was wrapped into a list at open time, the finished block is
  appended on pop;
* `forcedKey k` — `node[key] = [item]` (line 142);
* `opWrap k op` — the non-`=` operator block (lines 176-178):
  `node[k] = {"@operator": op, "@value": item}`;
* `intoList` — the parent is a list and the finished container is
  appended (lines 143-144 and 282-285);
* `root` — the bottom frame. -/

inductive InsMode where
  | assignKey : String → InsMode
  | appendKey : String → InsMode
  | forcedKey : String → InsMode
  | opWrap : String → String → InsMode
  | intoList : InsMode
  | root : InsMode
deriving Repr

structure Frame where
  name : String
  mode : InsMode
  container : PVal
deriving Repr

/-- Parser state: the frame stack (top first), the container of the root
frame once it has been popped (Python's `root` local survives the pop at
line 256), and the `variables` / `local_variables` tables. -/
structure PState where
  stack : List Frame
  finished : Option PVal
  vars : VarTable
  locals : VarTable
deriving Repr

/-- Write a finished frame back into its parent (the effect Python
achieved through aliasing at open time). -/
def mergeFrame (f g : Frame) : Option Frame :=
  match f.mode, g.container with
  | .assignKey k, .vdict es => some { g with container := .vdict (dictSet es k f.container) }
  | .appendKey k, .vdict es =>
    match dictGet es k with
    | some (.vlist xs) =>
      some { g with container := .vdict (dictSet es k (.vlist (xs ++ [f.container]))) }
    | _ => none
  | .forcedKey k, .vdict es =>
    some { g with container := .vdict (dictSet es k (.vlist [f.container])) }
  | .opWrap k op, .vdict es =>
    some { g with container := .vdict (dictSet es k
      (.vdict [("@operator", .vstr op), ("@value", f.container)])) }
  | .intoList, .vlist xs => some { g with container := .vlist (xs ++ [f.container]) }
  | _, _ => none

/-- `nodes.pop()` (line 256). -/
def popFrame (st : PState) : Except VarTable PState :=
  match st.stack with
  | [] => .error st.vars
  | [f] => .ok { st with stack := [], finished := some f.container }
  | f :: g :: tl =>
    match mergeFrame f g with
    | some g' => .ok { st with stack := g' :: tl }
    | none => .error st.vars

/-- `key in node` (lines 136 and 160): key membership for a dict,
element membership (Python `in` via `==`) for a list. -/
def containerHasKey (c : PVal) (k : String) : Bool :=
  match c with
  | .vdict es => dictHasKey es k
  | .vlist xs => xs.any (fun x => pyEq x (.vstr k))
  | _ => false

/-- `node[key] = v` on the top frame; raises (`none`) when the container
is a list, as Python's `TypeError` does. -/
def frameSetKey (f : Frame) (k : String) (v : PVal) : Option Frame :=
  match f.container with
  | .vdict es => some { f with container := .vdict (dictSet es k v) }
  | _ => none

/-- Result of converting the raw value text (lines 150-158): boolean
coercion via the `booleans` dict — note the membership test lowers the
value but the lookup does not, so a value like `"YES"` raises `KeyError` —
then `ast.literal_eval` with the raw string kept on failure. -/
def convertValue (value : String) : Option PVal :=
  if dictHasKey booleans (pyLower value) then
    dictGet booleans value
  else if value ≠ "" then
    some ((literal_eval value).getD (.vstr value))
  else
    some (.vstr value)

/-- The duplicate / forced-list insertion for a direct value
(lines 159-167), yielding `none` when the line raises, `some none` when
nothing is stored (the identical-duplicate collapse), and the updated
entries otherwise.  Only called with a dict container. -/
def insertScalarDup (es : List (String × PVal)) (key : String) (vv : PVal) :
    List (String × PVal) :=
  match dictGet es key with
  | some (.vlist xs) => dictSet es key (.vlist (xs ++ [vv]))
  | some old => dictSet es key (.vlist [old, vv])
  | none => es

/-- Registration of an `@`-key scalar (lines 242-244 and 247-249) and of a
formula result (lines 219-221): `variables[key.lstrip("@")] = v`. -/
def registerVar (vars : VarTable) (key : String) (v : PVal) : VarTable :=
  dictSet vars (String.mk (lstripSet ['@'] key.data)) v

/-- Lines 132-149: the value opens a block. -/
def interpBlockOpen (fl : List String) (st : PState) (f : Frame)
    (tl : List Frame) (key : String) : Except VarTable PState :=
  match f.container with
  | .vdict es =>
    if dictHasKey es key then
      match dictGet es key with
      | some (.vlist _) =>
        .ok { st with stack :=
          { name := key, mode := .appendKey key, container := .vdict [] } :: f :: tl }
      | some old =>
        .ok { st with stack :=
          { name := key, mode := .appendKey key, container := .vdict [] } ::
            { f with container := .vdict (dictSet es key (.vlist [old])) } :: tl }
      | none => .error st.vars
    else if fl.contains (pyLower key) then
      .ok { st with stack :=
        { name := key, mode := .forcedKey key, container := .vdict [] } :: f :: tl }
    else
      .ok { st with stack :=
        { name := key, mode := .assignKey key, container := .vdict [] } :: f :: tl }
  | .vlist xs =>
    if xs.any (fun x => pyEq x (.vstr key)) then
      -- `node[key]` on a list raises `TypeError`
      .error st.vars
    else if fl.contains (pyLower key) then
      -- `node[key] = [item]` on a list raises `TypeError`
      .error st.vars
    else
      -- lines 143-144: block appended to the list on pop
      .ok { st with stack :=
        { name := key, mode := .intoList, container := .vdict [] } :: f :: tl }
  | _ => .error st.vars

/-- Lines 159-249: a scalar `key OPERATOR value` into a dict container
(`es` are the container entries, `vv` the converted value). -/
def interpScalarDict (fl : List String) (st : PState) (f : Frame)
    (tl : List Frame) (key operator : String) (vv : PVal)
    (es : List (String × PVal)) : Except VarTable PState :=
  if dictHasKey es key then
    -- lines 159-164
    match dictGet es key with
    | some old =>
      if pyEq old vv then .ok st
      else
        .ok { st with stack := { f with container := .vdict (insertScalarDup es key vv) } :: tl }
    | none => .error st.vars
  else if fl.contains (pyLower key) then
    -- lines 165-167
    .ok { st with stack := { f with container := .vdict (dictSet es key (.vlist [vv])) } :: tl }
  else if operator ≠ "=" then
    -- lines 169-200: `node[key] = {"@operator": ..., "@value": ...}`
    match vv with
    | .vstr s =>
      if s == "" then
        -- lines 176-178: open an operator block
        .ok { st with stack :=
          { name := "@", mode := .opWrap key operator, container := .vdict [] } :: f :: tl }
      else if pyStartsWith s "@[" && pyEndsWith s "]" then
        -- lines 179-194 (no variable registration on this branch)
        .ok { st with stack := { f with container := .vdict (dictSet es key
          (PVal.vdict [("@operator", .vstr operator),
            ("@value", formulaNode s (resolveFormula st.vars s))])) } :: tl }
      else if pyStartsWith s "@" || dictHasKey st.vars s then
        -- lines 195-200
        .ok { st with stack := { f with container := .vdict (dictSet es key
          (PVal.vdict [("@operator", .vstr operator),
            ("@value", variableNode st.vars s)])) } :: tl }
      else
        .ok { st with stack := { f with container := .vdict (dictSet es key
          (PVal.vdict [("@operator", .vstr operator), ("@value", vv)])) } :: tl }
    | _ =>
      .ok { st with stack := { f with container := .vdict (dictSet es key
        (PVal.vdict [("@operator", .vstr operator), ("@value", vv)])) } :: tl }
  else
    -- operator is `=`
    match vv with
    | .vstr s =>
      if pyStartsWith s "@[" && pyEndsWith s "]" then
        -- lines 203-221
        match resolveFormula st.vars s with
        | some r =>
          if pyTruthy r then
            -- line 219: `if result:` — the commented-out `@` guard
            .ok { st with
                    stack := { f with container := PVal.vdict (dictSet es key (formulaNode s (some r))) } :: tl
                    vars := registerVar st.vars key r
                    locals := registerVar st.locals key r }
          else
            .ok { st with stack := { f with container := PVal.vdict (dictSet es key (formulaNode s (some r))) } :: tl }
        | none =>
          .ok { st with stack := { f with container := PVal.vdict (dictSet es key (formulaNode s none)) } :: tl }
      else if pyStartsWith s "@" then
        -- lines 222-227 (no registration)
        .ok { st with stack :=
          { f with container := .vdict (dictSet es key (variableNode st.vars s)) } :: tl }
      else if pyTruthy ((dictGet st.vars s).getD .vnone) then
        -- lines 228-237: the walrus branch
        match dictGet st.vars s with
        | some (.vstr _) => .ok st  -- `isinstance(variable_value, str)`: nothing stored
        | some _ =>
          if s ≠ "" && pyStartsWith key "@" then
            -- line 237 registers the *name* string, not the resolved value
            .ok { st with
                    stack := { f with container := PVal.vdict (dictSet es key (variableNode st.vars s)) } :: tl
                    vars := registerVar st.vars key (.vstr s)
                    locals := registerVar st.locals key (.vstr s) }
          else
            .ok { st with stack := { f with container := PVal.vdict (dictSet es key (variableNode st.vars s)) } :: tl }
        | none => .ok st
      else if pyStartsWith key "&" then
        -- line 238 requires a list container; here the container is a dict,
        -- so this branch falls through to the plain assignment below
        if s ≠ "" && pyStartsWith key "@" then
          .ok { st with
                  stack := { f with container := PVal.vdict (dictSet es key (PVal.vstr s)) } :: tl
                  vars := registerVar st.vars key (.vstr s)
                  locals := registerVar st.locals key (.vstr s) }
        else
          .ok { st with stack := { f with container := PVal.vdict (dictSet es key (.vstr s)) } :: tl }
      else
        -- lines 240-244
        if s ≠ "" && pyStartsWith key "@" then
          .ok { st with
                  stack := { f with container := PVal.vdict (dictSet es key (PVal.vstr s)) } :: tl
                  vars := registerVar st.vars key (.vstr s)
                  locals := registerVar st.locals key (.vstr s) }
        else
          .ok { st with stack := { f with container := PVal.vdict (dictSet es key (.vstr s)) } :: tl }
    | _ =>
      -- lines 245-249
      if pyTruthy vv && pyStartsWith key "@" then
        .ok { st with
                stack := { f with container := PVal.vdict (dictSet es key vv) } :: tl
                vars := registerVar st.vars key vv
                locals := registerVar st.locals key vv }
      else
        .ok { st with stack := { f with container := .vdict (dictSet es key vv) } :: tl }

/-- Lines 159-249 when the container is a list: every `node[key]` access
raises, so only the membership test and the `&`-comment append (lines
238-239) avoid an error. -/
def interpScalarList (fl : List String) (st : PState) (f : Frame)
    (tl : List Frame) (key operator : String) (vv : PVal) (xs : List PVal) :
    Except VarTable PState :=
  -- duplicate / forced / assignment paths all hit `node[key]` on a
  -- list; only the membership test and the `&`-comment append
  -- (line 238-239) can avoid raising
  if xs.any (fun x => pyEq x (.vstr key)) then .error st.vars
  else if fl.contains (pyLower key) then .error st.vars
  else if operator ≠ "=" then .error st.vars
  else
    match vv with
    | .vstr s =>
      if pyStartsWith s "@[" && pyEndsWith s "]" then .error st.vars
      else if pyStartsWith s "@" then .error st.vars
      else if pyTruthy ((dictGet st.vars s).getD .vnone) then
        match dictGet st.vars s with
        | some (.vstr _) => .ok st
        | _ => .error st.vars
      else if pyStartsWith key "&" then
        .ok { st with stack :=
          { f with container := .vlist (xs ++ [.vstr ("&" ++ s ++ "&")]) } :: tl }
      else .error st.vars
    | _ => .error st.vars

/-- Lines 129-249: dispatch a `key OPERATOR value` line (value already
stripped). -/
def interpKVs (fl : List String) (st : PState) (f : Frame) (tl : List Frame)
    (key operator value : String) : Except VarTable PState :=
  if pyEndsWith value (String.mk [lbrace]) then
    interpBlockOpen fl st f tl key
  else
    match convertValue value with
    | none => .error st.vars  -- `booleans[value]` raised `KeyError`
    | some vv =>
      match f.container with
      | .vdict es => interpScalarDict fl st f tl key operator vv es
      | .vlist xs => interpScalarList fl st f tl key operator vv xs
      | _ => .error st.vars

/-- Line 131: the value group is stripped before `interpKVs` branches on
it. -/
def interpKV (fl : List String) (st : PState) (f : Frame) (tl : List Frame)
    (key operator value0 : String) : Except VarTable PState :=
  interpKVs fl st f tl key operator (String.mk (stripWs value0.data))

/-- One list item (lines 288-302): `@`-tokens become variable nodes,
other tokens go through `ast.literal_eval` with the raw string kept on
failure. -/
def itemVal (vars : VarTable) (item : String) : PVal :=
  if pyStartsWith item "@" then variableNode vars item
  else (literal_eval item).getD (.vstr item)

/-- Lines 281-302: the current container is already a list; either push
an anonymous block or append the tokenized items. -/
def interpBareItems (st : PState) (f : Frame) (tl : List Frame)
    (line : String) : Except VarTable PState :=
  if line == String.mk [lbrace] then
    .ok { st with stack :=
      { name := "", mode := .intoList, container := .vdict [] } :: f :: tl }
  else
    match f.container with
    | .vlist xs =>
      .ok { st with stack :=
        { f with container :=
            .vlist (xs ++ (findItems line.data).map (itemVal st.vars)) } :: tl }
    | _ => .error st.vars

/-- The replacement list chosen by lines 263-277 for a named non-list
frame: a comment-marker promotion, a fresh list for `on_actions`/`events`
or an empty container, or `none` when the line is skipped with a warning
(non-empty dict whose first key is no comment marker). -/
def bareListX (f : Frame) : Option PVal :=
  match f.container with
  | .vdict ((k0, v0) :: _) =>
    if pyStartsWith k0 "&" then
      some (.vlist [.vstr ("&" ++ pyStr v0 ++ "&")])
    else if f.name == "on_actions" || f.name == "events" then
      some (.vlist [])
    else
      none
  | _ => some (.vlist [])

/-- The parent-dict entries after materializing a pending operator
wrapper (which Python had inserted at open time). -/
def bareMaterialize (f : Frame) (ges : List (String × PVal)) :
    List (String × PVal) :=
  match f.mode with
  | .opWrap k op =>
    dictSet ges k (.vdict [("@operator", .vstr op), ("@value", .vdict [])])
  | _ => ges

/-- Lines 257-302: a line that is neither `key OPERATOR value` nor a
closing bracket.  First the current container is coerced to a list
(lines 259-280) — accessing `nodes[-2]` first, which raises `IndexError`
at the root — then the line is treated as list content. -/
def interpBare (st : PState) (f : Frame) (tl : List Frame)
    (line : String) : Except VarTable PState :=
  match f.container with
  | .vlist _ => interpBareItems st f tl line
  | _ =>
    match tl with
    | [] => .error st.vars  -- `_, prev = nodes[-2]` raises `IndexError`
    | g :: gtl =>
      if f.name ≠ "" then
        -- decide the replacement list `X` (lines 263-277)
        match bareListX f with
        | none => .ok st  -- warning logged, line skipped (lines 270-275)
        | some X =>
          -- `prev[node_name] = node = X` (lines 266 / 268 / 277)
          match g.container with
          | .vdict ges =>
            -- materialize the pending operator wrapper the Python code
            -- inserted at open time before adding the new binding,
            -- rebind the frame's name to `X`, and continue with the
            -- rebound frame (whose future pop re-assigns the binding)
            interpBareItems
              { st with stack :=
                  { f with mode := .assignKey f.name, container := X } ::
                    { g with container := PVal.vdict (dictSet (bareMaterialize f ges) f.name X) } :: gtl }
              { f with mode := .assignKey f.name, container := X }
              ({ g with container := PVal.vdict (dictSet (bareMaterialize f ges) f.name X) } :: gtl)
              line
          | _ => .error st.vars  -- `prev[node_name]` on a list: `TypeError`
      else
        match g.container with
        | .vlist _ =>
          -- `prev[-1] = node = []` (line 279)
          interpBareItems
            { st with stack :=
                { f with mode := .intoList, container := .vlist [] } :: g :: gtl }
            { f with mode := .intoList, container := .vlist [] }
            (g :: gtl)
            line
        | _ => .error st.vars  -- `node.append` on a dict: `AttributeError`

/-- One iteration of the line loop (lines 120-302): strip the line, skip
blanks, read the current frame (raising when the stack is empty), and
dispatch on the line shape. -/
def interpLine (fl : List String) (st : PState) (lineText : String) :
    Except VarTable PState :=
  let line := String.mk (stripWs lineText.data)
  if line == "" then .ok st
  else
    match st.stack with
    | [] => .error st.vars  -- `nodes[-1]` raises `IndexError`
    | f :: tl =>
      match regexLineFullmatch line with
      | some (key, operator, value0) => interpKV fl st f tl key operator value0
      | none =>
        if line == String.mk [lbrace] && f.name == "@" then .ok st  -- lines 250-252
        else if line == String.mk [rbrace] then popFrame st  -- lines 253-256
        else interpBare st f tl line

/-- The whole line loop; the first raising line aborts with the variable
table as mutated so far (the caller turns this into the `None` result). -/
def runLines (fl : List String) : PState → List String → Except VarTable PState
  | st, [] => .ok st
  | st, l :: rest =>
    match interpLine fl st l with
    | .error v => .error v
    | .ok st' => runLines fl st' rest

/-- Close every frame still open at end of input.  In Python the nested
containers were already aliased into the root at open time, so the
fully-mutated root is returned as-is; the deferred-write-back model folds
the stack instead, which yields the same document. -/
def foldCloseGo (f : Frame) : List Frame → Option PVal
  | [] => some f.container
  | g :: tl =>
    match mergeFrame f g with
    | some g' => foldCloseGo g' tl
    | none => none

/-- See `foldClose`'s doc comment above. -/
def foldClose : List Frame → Option PVal
  | [] => none
  | f :: tl => foldCloseGo f tl

/-- The initial state: `root = {}`, `nodes = [("", root)]`. -/
def initState (vars : VarTable) : PState :=
  { stack := [{ name := "", mode := .root, container := .vdict [] }]
    finished := none
    vars := vars
    locals := [] }

/-- Run the line loop over canonicalized lines and extract the result
(the `root` dict, which survives even a pop of the bottom frame). -/
def parseLines (fl : List String) (vars : VarTable) (lines : List String) :
    Option PVal × VarTable :=
  match runLines fl (initState vars) lines with
  | .error v => (none, v)
  | .ok st =>
    match st.stack with
    | [] => (st.finished, st.vars)
    | fs => (foldClose fs, st.vars)

/-! ## The canonicalization passes (lines 92-118 of the source) -/

/-- Placeholder token `|i|` used by the string-extraction passes. -/
def placeholder (i : Nat) : List Char := '|' :: (toString i).data ++ ['|']

/-- All matches of `regex_string = \"[^\"\n]*\"` (line 34), in order:
a quote, any run of characters other than quote/newline, a closing
quote.  An unterminated quote has no match starting at it and scanning
resumes at the next character. -/
def findMatchesQSF : Nat → List Char → List (List Char)
  | _, [] => []
  | 0, _ => []
  | fuel + 1, c :: rest =>
    if c == dquote then
      let interior := (spanP (fun d => d != dquote && d != '\n') rest).1
      match (spanP (fun d => d != dquote && d != '\n') rest).2 with
      | a :: tail =>
        if a == dquote then
          (dquote :: interior ++ [dquote]) :: findMatchesQSF fuel tail
        else findMatchesQSF fuel rest
      | [] => findMatchesQSF fuel rest
    else findMatchesQSF fuel rest

def findMatchesQS (cs : List Char) : List (List Char) := findMatchesQSF cs.length cs

/-- All matches of `regex_string_multiline = \"[^\"]*\"` (line 35). -/
def findMatchesQMF : Nat → List Char → List (List Char)
  | _, [] => []
  | 0, _ => []
  | fuel + 1, c :: rest =>
    if c == dquote then
      let interior := (spanP (fun d => d != dquote) rest).1
      match (spanP (fun d => d != dquote) rest).2 with
      | _ :: tail => (dquote :: interior ++ [dquote]) :: findMatchesQMF fuel tail
      | [] => findMatchesQMF fuel rest
    else findMatchesQMF fuel rest

def findMatchesQM (cs : List Char) : List (List Char) := findMatchesQMF cs.length cs

/-- `text = text.replace(match.group(0), f"|{index}|", 1)` folded over the
matches, numbering from `start`. -/
def applyExtract (start : Nat) (ms : List (List Char)) (t : List Char) : List Char :=
  match ms with
  | [] => t
  | m :: rest => applyExtract (start + 1) rest (replaceFirst m (placeholder start) t)

/-- `regex_comment.sub("", text)` (line 103; pattern at line 37:
`(?P<space>\s*)##*(?P<comment>.*)$` with `MULTILINE`).  The scanner keeps
the pending whitespace run; on a `#` the run and the rest of the line are
removed (the line's newline itself is not part of `.*$` and survives). -/
def stripCommentsF : Nat → List Char → List Char → List Char
  | _, buf, [] => buf
  | 0, buf, cs => buf ++ cs
  | fuel + 1, buf, c :: rest =>
    if c == '#' then
      stripCommentsF fuel [] ((spanP (fun d => d != '\n') rest).2)
    else if pyIsSpace c then
      stripCommentsF fuel (buf ++ [c]) rest
    else
      buf ++ c :: stripCommentsF fuel [] rest

def stripComments (buf : List Char) (cs : List Char) : List Char :=
  stripCommentsF cs.length buf cs

/-- All matches of `regex_comment` with their `space` and `comment`
groups: `(full match, space, comment)`. -/
def findCommentsF : Nat → List Char → List Char → List (List Char × List Char × List Char)
  | _, _, [] => []
  | 0, _, _ => []
  | fuel + 1, buf, c :: rest =>
    if c == '#' then
      let hashes := (spanP (fun d => d == '#') (c :: rest)).1
      let afterH := (spanP (fun d => d == '#') (c :: rest)).2
      let comment := (spanP (fun d => d != '\n') afterH).1
      let tail := (spanP (fun d => d != '\n') afterH).2
      (buf ++ hashes ++ comment, buf, comment) :: findCommentsF fuel [] tail
    else if pyIsSpace c then
      findCommentsF fuel (buf ++ [c]) rest
    else
      findCommentsF fuel [] rest

def findComments (buf : List Char) (cs : List Char) :
    List (List Char × List Char × List Char) :=
  findCommentsF cs.length buf cs

/-- The comment-preserving branch (lines 96-101): each comment becomes a
synthetic `&i=|i|` line when non-blank, and is dropped otherwise;
the table records the quoted, quote-sanitized, right-stripped text. -/
def applyComments (start : Nat) (ms : List (List Char × List Char × List Char))
    (t : List Char) : List (Nat × List Char) × List Char :=
  match ms with
  | [] => ([], t)
  | (full, space, comment) :: rest =>
    let value := rstripSet [' ', '\t', '\n', '\r', Char.ofNat 11, Char.ofNat 12]
      (replaceAll [dquote] [squote] comment)
    let entry := dquote :: value ++ [dquote]
    let repl :=
      if (stripWs value).isEmpty then ([] : List Char)
      else '\n' :: space ++ '&' :: (toString start).data ++ '=' :: placeholder start ++ ['\n']
    let t' := replaceFirst full repl t
    let (entries, t'') := applyComments (start + 1) rest t'
    ((start, entry) :: entries, t'')

/-- One match attempt of `regex_list = \s*=\s*list\s*([\{\"\|])` (line 41)
at the current position; returns the match length and the captured
character. -/
def tryListAt (cs : List Char) : Option (Nat × Char) :=
  let ws1 := (spanP pyIsSpace cs).1
  match (spanP pyIsSpace cs).2 with
  | e :: r2 =>
    if e == '=' then
      let ws2 := (spanP pyIsSpace r2).1
      let r3 := (spanP pyIsSpace r2).2
      if "list".data.isPrefixOf r3 then
        let r4 := r3.drop 4
        let ws3 := (spanP pyIsSpace r4).1
        match (spanP pyIsSpace r4).2 with
        | d :: _ =>
          if d == lbrace || d == dquote || d == '|' then
            some (ws1.length + 1 + ws2.length + 4 + ws3.length + 1, d)
          else none
        | [] => none
      else none
    else none
  | [] => none

/-- `regex_list.sub("|list=\g<1>", text)` (line 107). -/
def listPassF : Nat → List Char → List Char
  | _, [] => []
  | 0, cs => cs
  | fuel + 1, c :: rest =>
    match tryListAt (c :: rest) with
    | some (len, d) =>
      '|' :: "list=".data ++ [d] ++ listPassF fuel ((c :: rest).drop len)
    | none => c :: listPassF fuel rest

def listPass (cs : List Char) : List Char := listPassF cs.length cs

/-- Index of the last `'\n'` in a character list. -/
def lastNlIdx (l : List Char) : Option Nat :=
  match l.reverse.findIdx? (fun c => c == '\n') with
  | some k => some (l.length - 1 - k)
  | none => none

/-- One match attempt of `regex_block = ^([^\s\{\=]+)\s*\{\s*$` (line 39,
`MULTILINE`) at a line-start position: a run of characters that are not
whitespace, `{` or `=`; any whitespace (which may cross newlines); a `{`;
then whitespace up to an end-of-line — the greedy trailing `\s*`
backtracks to the last `'\n'` it covers (or to the end of the string).
Returns the captured group and the match length. -/
def tryBlockAt (cs : List Char) : Option (List Char × Nat) :=
  let g1 := (spanP (fun d => !pyIsSpace d && d != lbrace && d != '=') cs).1
  if g1.isEmpty then none
  else
    let r1 := (spanP (fun d => !pyIsSpace d && d != lbrace && d != '=') cs).2
    let ws1 := (spanP pyIsSpace r1).1
    match (spanP pyIsSpace r1).2 with
    | b :: r3 =>
      if b == lbrace then
        let trailing := (spanP pyIsSpace r3).1
        let r4 := (spanP pyIsSpace r3).2
        if r4.isEmpty then
          some (g1, g1.length + ws1.length + 1 + trailing.length)
        else
          match lastNlIdx trailing with
          | some j => some (g1, g1.length + ws1.length + 1 + j)
          | none => none
      else none
    | [] => none

/-- `regex_block.sub("\g<1>={", text)` (line 108), tracking line starts
for the `^` anchor. -/
def blockPassF : Nat → Bool → List Char → List Char
  | _, _, [] => []
  | 0, _, cs => cs
  | fuel + 1, atLineStart, c :: rest =>
    if atLineStart then
      match tryBlockAt (c :: rest) with
      | some (g1, len) =>
        g1 ++ '=' :: [lbrace] ++ blockPassF fuel false ((c :: rest).drop len)
      | none => c :: blockPassF fuel (c == '\n') rest
    else c :: blockPassF fuel (c == '\n') rest

def blockPass (atLineStart : Bool) (cs : List Char) : List Char :=
  blockPassF cs.length atLineStart cs

/-- `text.replace("{", "\n{\n").replace("}", "\n}\n")` (line 109). -/
def bracesPass (cs : List Char) : List Char :=
  replaceAll [rbrace] ['\n', rbrace, '\n']
    (replaceAll [lbrace] ['\n', lbrace, '\n'] cs)

/-- One match attempt of `regex_color = =\s*(?P<type>\w+)\s*{` (line 43)
at a position holding `=`. -/
def tryColorAt (cs : List Char) : Option (Nat × List Char) :=
  match cs with
  | e :: r1 =>
    if e == '=' then
      let ws1 := (spanP pyIsSpace r1).1
      let r2 := (spanP pyIsSpace r1).2
      let word := (spanP pyIsWord r2).1
      if word.isEmpty then none
      else
        let r3 := (spanP pyIsWord r2).2
        let ws2 := (spanP pyIsSpace r3).1
        match (spanP pyIsSpace r3).2 with
        | b :: _ =>
          if b == lbrace then
            some (1 + ws1.length + word.length + ws2.length + 1, word)
          else none
        | [] => none
    else none
  | [] => none

/-- `regex_color.sub("={\n\g<1>", text)` (line 110). -/
def colorPassF : Nat → List Char → List Char
  | _, [] => []
  | 0, cs => cs
  | fuel + 1, c :: rest =>
    match tryColorAt (c :: rest) with
    | some (len, word) =>
      '=' :: lbrace :: '\n' :: word ++ colorPassF fuel ((c :: rest).drop len)
    | none => c :: colorPassF fuel rest

def colorPass (cs : List Char) : List Char := colorPassF cs.length cs

/-! ### `regex_inline` (line 45 of the source):
`([^\s\"]+\s*[!<=>]+\s*(([^@\"]\[?[^\s]+\]?)|(\"[^\"]+\")|(@\[[^\]]+\]))|(@\w+))`
applied with `sub("\g<1>\n", text)`.  The three value branches and the
backtracking over the key run, the operator run and the whitespace before
the value are implemented explicitly, in the engine's priority order. -/

/-- Branch `[^@\"]\[?[^\s]+\]?`: one character other than `@`/quote, an
optional `[` (preferred), a non-empty greedy non-space run (after which
the optional `]` is necessarily empty).  Returns the consumed length. -/
def inlineB1 : List Char → Option Nat
  | [] => none
  | a :: r5 =>
    if a == '@' || a == dquote then none
    else
      match r5 with
      | b :: r6 =>
        if b == '[' then
          let nw := (spanP (fun d => !pyIsSpace d) r6).1
          if nw.isEmpty then
            -- backtrack `\[?` to the empty match; the `[` itself then
            -- satisfies `[^\s]+`
            some 2
          else some (2 + nw.length)
        else
          let nw := (spanP (fun d => !pyIsSpace d) (b :: r6)).1
          if nw.isEmpty then none else some (1 + nw.length)
      | [] => none

/-- Branch `\"[^\"]+\"`. -/
def inlineB2 : List Char → Option Nat
  | [] => none
  | q :: r5 =>
    if q == dquote then
      let interior := (spanP (fun d => d != dquote) r5).1
      match (spanP (fun d => d != dquote) r5).2 with
      | _ :: _ => if interior.isEmpty then none else some (1 + interior.length + 1)
      | [] => none
    else none

/-- Branch `@\[[^\]]+\]`. -/
def inlineB3 : List Char → Option Nat
  | a :: b :: r5 =>
    if a == '@' && b == '[' then
      let interior := (spanP (fun d => d != ']') r5).1
      match (spanP (fun d => d != ']') r5).2 with
      | _ :: _ => if interior.isEmpty then none else some (2 + interior.length + 1)
      | [] => none
    else none
  | _ => none

/-- The value alternation, in pattern order. -/
def inlineAlts (r4 : List Char) : Option Nat :=
  match inlineB1 r4 with
  | some n => some n
  | none =>
    match inlineB2 r4 with
    | some n => some n
    | none => inlineB3 r4

/-- Backtracking over the whitespace consumed by the `\s*` before the
value branch, from `w2` characters down to none (the class `[^@\"]`
overlaps with whitespace, so this matters). -/
def inlineW2 (r3 : List Char) : Nat → Option Nat
  | 0 => inlineAlts r3
  | w2 + 1 =>
    match inlineAlts (r3.drop (w2 + 1)) with
    | some b => some (w2 + 1 + b)
    | none => inlineW2 r3 w2

/-- Backtracking over the operator run `[!<=>]+`, from `ol` characters
down to one. -/
def inlineOps (r2 : List Char) : Nat → Option Nat
  | 0 => none
  | ol + 1 =>
    let r3 := r2.drop (ol + 1)
    match inlineW2 r3 (spanP pyIsSpace r3).1.length with
    | some t => some (ol + 1 + t)
    | none => inlineOps r2 ol

/-- Backtracking over the key run `[^\s\"]+`, from `kl` characters down
to one.  The `\s*` after the key is deterministic because operator
characters are not whitespace. -/
def inlineKeyLoop (cs : List Char) : Nat → Option Nat
  | 0 => none
  | kl + 1 =>
    let r1 := cs.drop (kl + 1)
    let ws1 := (spanP pyIsSpace r1).1.length
    let r2 := r1.drop ws1
    match inlineOps r2 (spanP isOpChar r2).1.length with
    | some t => some (kl + 1 + ws1 + t)
    | none => inlineKeyLoop cs kl

/-- The whole-match attempt of `regex_inline` at one position: the long
alternative first, then `@\w+`. -/
def matchInlineAt (cs : List Char) : Option Nat :=
  match inlineKeyLoop cs (spanP isKeyChar cs).1.length with
  | some n => some n
  | none =>
    match cs with
    | a :: rest =>
      if a == '@' then
        let w := (spanP pyIsWord rest).1.length
        if w == 0 then none else some (1 + w)
      else none
    | [] => none

/-- `regex_inline.sub("\g<1>\n", text)` (line 111): insert a newline
after each match. -/
def inlinePassF : Nat → List Char → List Char
  | _, [] => []
  | 0, cs => cs
  | fuel + 1, c :: rest =>
    match matchInlineAt (c :: rest) with
    | some len => (c :: rest).take len ++ '\n' :: inlinePassF fuel ((c :: rest).drop len)
    | none => c :: inlinePassF fuel rest

def inlinePass (cs : List Char) : List Char := inlinePassF cs.length cs

/-- One match attempt of `regex_values = (=\s*\n+)|(\n+\s*=)` (line 47):
either `=` followed by whitespace containing a newline (the greedy
`\s*`/`\n+` interplay ends the match at the last newline of the run), or
a newline-led whitespace run followed by `=`. -/
def tryValuesAt (cs : List Char) : Option Nat :=
  match cs with
  | c :: rest =>
    if c == '=' then
      match lastNlIdx ((spanP pyIsSpace rest).1) with
      | some j => some (1 + j + 1)
      | none => none
    else if c == '\n' then
      match (spanP pyIsSpace cs).2 with
      | d :: _ =>
        if d == '=' then some ((spanP pyIsSpace cs).1.length + 1) else none
      | [] => none
    else none
  | [] => none

/-- `regex_values.sub("=", text)` (line 112). -/
def valuesPassF : Nat → List Char → List Char
  | _, [] => []
  | 0, cs => cs
  | fuel + 1, c :: rest =>
    match tryValuesAt (c :: rest) with
    | some len => '=' :: valuesPassF fuel ((c :: rest).drop len)
    | none => c :: valuesPassF fuel rest

def valuesPass (cs : List Char) : List Char := valuesPassF cs.length cs

/-- One match attempt of `regex_empty = (\n\s*\n)+` (line 53): a newline,
then (through the repeated greedy body) everything up to the last newline
of the whitespace run, which must be distinct from the first. -/
def tryEmptyAt (cs : List Char) : Option Nat :=
  match cs with
  | c :: _ =>
    if c == '\n' then
      match lastNlIdx ((spanP pyIsSpace cs).1) with
      | some j => if 1 ≤ j then some (j + 1) else none
      | none => none
    else none
  | [] => none

/-- `regex_empty.sub("\n", text)` (line 113). -/
def emptyPassF : Nat → List Char → List Char
  | _, [] => []
  | 0, cs => cs
  | fuel + 1, c :: rest =>
    match tryEmptyAt (c :: rest) with
    | some len => '\n' :: emptyPassF fuel ((c :: rest).drop len)
    | none => c :: emptyPassF fuel rest

def emptyPass (cs : List Char) : List Char := emptyPassF cs.length cs

/-- Lines 114-115: `text.replace(f"{keyword} ", f"{keyword}|")` for each
keyword. -/
def keywordsPass (cs : List Char) : List Char :=
  keywords.foldl (fun t kw => replaceAll (kw.data ++ [' ']) (kw.data ++ ['|']) t) cs

/-! ## `canonicalize`: the whole normalization pipeline (lines 92-118) -/

/-- The cleaning passes of `parse_text` applied in source order, producing
the canonical text consumed by the line loop.  The extraction passes build
the `strings` side table, whose entries are substituted back (lines
116-117) after the structural passes. -/
def canonicalize (comments : Bool) (text : String) : String :=
  let t0 := text.data
  -- lines 92-95: extract single-line quoted strings
  let qs := findMatchesQS t0
  let t1 := applyExtract 0 qs t0
  let qsTable := qs.enum
  let idxQ := if qs.isEmpty then 0 else qs.length - 1
  -- lines 96-103: comments
  let cPass :=
    if comments then
      let ms := findComments [] t1
      let (entries, t') := applyComments (idxQ + 1) ms t1
      (entries, t', if ms.isEmpty then idxQ else idxQ + ms.length)
    else
      ([], stripComments [] t1, idxQ)
  let t2 := cPass.2.1
  let idxC := cPass.2.2
  -- lines 104-106: extract remaining (multi-line) quoted strings
  let qm := findMatchesQM t2
  let t3 := applyExtract (idxC + 1) qm t2
  let qmTable := qm.enum.map (fun im =>
    (idxC + 1 + im.1, stripWs (replaceAll ['\n'] [' '] im.2)))
  let table := qsTable ++ cPass.1 ++ qmTable
  -- lines 107-115: structural passes
  let t4 := listPass t3
  let t5 := blockPass true t4
  let t6 := bracesPass t5
  let t7 := colorPass t6
  let t8 := inlinePass t7
  let t9 := valuesPass t8
  let t10 := emptyPass t9
  let t11 := keywordsPass t10
  -- lines 116-117: substitute the extracted strings back
  let t12 := table.foldl (fun t iv => replaceFirst (placeholder iv.1) iv.2 t) t11
  String.mk t12

/-! ## `parse_text` (lines 79-310) -/

/-- The three possible outcomes of `parse_text`: a document, `None`, or —
with `return_text_on_error` — the canonical text built so far. -/
inductive ParseOut where
  | doc : PVal → ParseOut
  | errNone : ParseOut
  | errText : String → ParseOut
deriving Repr

/-- `parse_text` with its flags, returning the outcome together with the
final state of the global `variables` table. -/
def parse_text_opts (fl : List String) (vars : VarTable) (text : String)
    (return_text_on_error comments : Bool) : ParseOut × VarTable :=
  let canon := canonicalize comments text
  let lines := (splitlinesLC canon.data).map String.mk
  match runLines fl (initState vars) lines with
  | .error v => (if return_text_on_error then .errText canon else .errNone, v)
  | .ok st =>
    match st.stack with
    | [] =>
      match st.finished with
      | some d => (.doc d, st.vars)
      | none => (.errNone, st.vars)
    | fs =>
      match foldClose fs with
      | some d => (.doc d, st.vars)
      | none => (.errNone, st.vars)

/-- `parse_text` with the default flags, as called throughout this
development: the parsed document (`none` on a parse failure) and the
updated variable table. -/
def parse_text (fl : List String) (vars : VarTable) (text : String) :
    Option PVal × VarTable :=
  match parse_text_opts fl vars text false false with
  | (.doc d, v) => (some d, v)
  | (_, v) => (none, v)

/-! ## `revert` (lines 447-571 of the source) -/

/-- `^\w+SUFFIX$` with `IGNORECASE`: a non-empty word-character run
followed by the literal suffix. -/
def ruleWordThen (suffix : String) (s : List Char) : Bool :=
  decide (s.length > suffix.length) &&
    suffix.data.isSuffixOf s &&
    (s.take (s.length - suffix.length)).all pyIsWord

/-- `^PREFIX\w*$` / `^PREFIX\w+$` with `IGNORECASE`. -/
def rulePrefixThenWord (pre : String) (atLeastOne : Bool) (s : List Char) : Bool :=
  pre.data.isPrefixOf s &&
    (s.drop pre.length).all pyIsWord &&
    (!atLeastOne || decide (s.length > pre.length))

/-- `list_keys_rules` (lines 448-464): the serializer's ordered allow-list
of keys whose list values are emitted as one bracketed block; all patterns
are anchored and case-insensitive, so the key is lowered first.  The
plural rule is `^(?!(e_|k_|d_|c_|b_))[^\.\:\s]+s$` and the last rule is
`^[^=]+=$`. -/
def list_keys_rules (k : String) : Bool :=
  let s := (pyLower k).data
  ruleWordThen "_color" s ||
  rulePrefixThenWord "color" false s ||
  rulePrefixThenWord "gene_" true s ||
  rulePrefixThenWord "face_detail_" true s ||
  rulePrefixThenWord "expression_" true s ||
  ruleWordThen "_accessory" s ||
  (s == "complexion".data) ||
  (decide (s.length ≥ 2) &&
    !("e_".data.isPrefixOf s) && !("k_".data.isPrefixOf s) &&
    !("d_".data.isPrefixOf s) && !("c_".data.isPrefixOf s) &&
    !("b_".data.isPrefixOf s) &&
    (s.dropLast.all (fun c => c != '.' && c != ':' && !pyIsSpace c)) &&
    s.getLast? == some 's') ||
  ruleWordThen "_gfx" s ||
  (decide (s.length ≥ 2) && (s.dropLast.all (fun c => c != '=')) &&
    s.getLast? == some '=')

/-- `revert_value` (lines 530-549) restricted to scalars — the dict case
(which re-enters `revert`) is handled directly at the call sites.  A
string that is a comment marker is emitted as `#&...&`, a string with a
space or `$...$` decoration is quoted with embedded quotes escaped,
booleans render as `yes`/`no`, numbers as their literal text. -/
def revert_value_scalar (value : PVal) : String :=
  match value with
  | .vbool b => if b then "yes" else "no"
  | .vstr v =>
    if pyStartsWith v "&" && pyEndsWith v "&" then "#" ++ v
    else if v.data.contains ' ' || (pyStartsWith v "$" && pyEndsWith v "$") then
      String.mk ([dquote] ++ replaceAll [dquote] ['\\', dquote] v.data ++ [dquote])
    else v
  | .vint n => intStr n
  | .vfloat q => floatStr q
  | .vnone => "None"
  | _ => ""  -- dict handled at call sites; a list here raises in Python

/-- The four-spaces-per-depth indentation (`sep * depth`; negative depth
gives the empty string, as Python's string repetition does). -/
def tabsFor (depth : Int) : String :=
  if depth ≤ 0 then "" else String.join (List.replicate depth.toNat "    ")

/-- Truthiness of the `from_key` argument (`if from_key:`). -/
def fkTruthy : Option String → Bool
  | some k => k != ""
  | none => false

/-- `from_key or value` in the `@type` branch of `revert_special`. -/
def fkOr (fk : Option String) (v : String) : String :=
  match fk with
  | some k => if k != "" then k else v
  | none => v

theorem sizeOf_dictGet_lt {es : List (String × PVal)} {k : String} {v : PVal}
    (h : dictGet es k = some v) : sizeOf v < sizeOf es := by
  induction es with
  | nil => simp [dictGet] at h
  | cons e rest ih =>
    simp only [dictGet, List.find?] at h
    by_cases hk : (e.1 == k) = true
    · rw [hk] at h
      simp at h
      cases e with
      | mk k' v' =>
        simp at h
        subst h
        simp
        omega
    · simp only [Bool.not_eq_true] at hk
      rw [hk] at h
      have := ih (by simpa [dictGet] using h)
      simp
      omega

/-- The scalar line emission of `revert` (lines 514-524). -/
def scalarLine (obj : PVal) (from_key prev_key : Option String) (tabs : String) :
    List String :=
  if fkTruthy from_key then
    let fk := from_key.getD ""
    if pyStartsWith fk "&" ||
        (match obj with
         | .vstr v => pyStartsWith v "&" && pyEndsWith v "&"
         | _ => false) then
      let value :=
        match obj with
        | .vstr v => String.mk (rstripSet ['&'] (lstripSet ['&'] v.data))
        | _ => pyStr obj
      [tabs ++ "#" ++ value]
    else
      [tabs ++ (String.mk (replaceAll ['|'] [' '] fk.data)) ++ " = " ++ revert_value_scalar obj]
  else
    [tabs ++ revert_value_scalar obj]

mutual

/-- `revert` (lines 467-527) producing the list of emitted lines; the
top-level entry point joins them.  `from_key`/`prev_key` are `None` or a
key string; `depth` drives indentation. -/
def revertLines (obj : PVal) (from_key prev_key : Option String) (depth : Int) :
    List String :=
  let tabs := tabsFor depth
  match obj with
  | .vdict es =>
    match revert_special es from_key prev_key with
    | some special => special.map (fun line => tabs ++ line)
    | none =>
      let openL :=
        if fkTruthy from_key then
          [tabs ++ (String.mk (replaceAll ['|'] [' '] (from_key.getD "").data)) ++ " = " ++ String.mk [lbrace]]
        else if depth > 0 then [tabs ++ String.mk [lbrace]] else []
      let closeL :=
        if fkTruthy from_key || depth > 0 then [tabs ++ String.mk [rbrace]] else []
      openL ++ revertEntries es from_key (depth + 1) ++ closeL
  | .vlist xs =>
    -- color-tuple special case (lines 496-501)
    match xs with
    | x0 :: xrest =>
      if fkTruthy from_key && decide ((x0 :: xrest).length > 3) &&
          (pyEq x0 (.vstr "rgb") || pyEq x0 (.vstr "hsv") ||
           pyEq x0 (.vstr "hls") || pyEq x0 (.vstr "hsv360")) then
        let fk' := (from_key.getD "") ++ " " ++ revert_value_scalar x0
        [tabs ++ (String.mk (replaceAll ['|'] [' '] fk'.data)) ++ " = " ++ String.mk [lbrace]] ++
          revertItems xrest none none (depth + 1) ++
          [tabs ++ String.mk [rbrace]]
      else if fkTruthy from_key && !list_keys_rules (from_key.getD "") then
        -- repeated-key emission (lines 502-504)
        revertItems (x0 :: xrest) from_key prev_key depth
      else
        let openL :=
          if fkTruthy from_key then
            [tabs ++ (String.mk (replaceAll ['|'] [' '] (from_key.getD "").data)) ++ " = " ++ String.mk [lbrace]]
          else [tabs ++ String.mk [lbrace]]
        openL ++ revertItems (x0 :: xrest) none none (depth + 1) ++
          [tabs ++ String.mk [rbrace]]
    | [] =>
      if fkTruthy from_key && !list_keys_rules (from_key.getD "") then []
      else
        let openL :=
          if fkTruthy from_key then
            [tabs ++ (String.mk (replaceAll ['|'] [' '] (from_key.getD "").data)) ++ " = " ++ String.mk [lbrace]]
          else [tabs ++ String.mk [lbrace]]
        openL ++ [tabs ++ String.mk [rbrace]]
  | .vnone => []
  | .vstr v =>
    if v == "" then []  -- `elif isinstance(obj, (int, float)) or obj:`
    else scalarLine obj from_key prev_key tabs
  | _ => scalarLine obj from_key prev_key tabs
termination_by sizeOf obj
decreasing_by
  all_goals simp
  all_goals omega

/-- The `for key, value in obj.items()` loop of the dict branch
(line 491-492): each child is reverted under its key, with the parent's
key as `prev_key` and one more level of depth. -/
def revertEntries (es : List (String × PVal)) (parentKey : Option String)
    (depth : Int) : List String :=
  match es with
  | [] => []
  | (k, v) :: rest =>
    revertLines v (some k) parentKey depth ++ revertEntries rest parentKey depth
termination_by sizeOf es
decreasing_by
  all_goals simp
  all_goals omega

/-- The `for value in obj` loops of the list branch (lines 503-504 and
511-512). -/
def revertItems (xs : List PVal) (from_key prev_key : Option String)
    (depth : Int) : List String :=
  match xs with
  | [] => []
  | x :: rest =>
    revertLines x from_key prev_key depth ++ revertItems rest from_key prev_key depth
termination_by sizeOf xs
decreasing_by
  all_goals simp
  all_goals omega

/-- `revert_special` (lines 552-571): operator wrappers and
variable/formula nodes are emitted from their raw textual form. -/
def revert_special (es : List (String × PVal)) (from_key prev_key : Option String) :
    Option (List String) :=
  if dictHasKey es "@operator" then
    let operator :=
      match dictGet es "@operator" with
      | some (.vstr op) => op
      | _ => ""
    match h : dictGet es "@value" with
    | some (.vdict ds) =>
      -- `revert_value` re-enters `revert` at depth 0 and the first
      -- emitted line has its `=` replaced by the operator
      match revertLines (.vdict ds) from_key prev_key 0 with
      | l0 :: rest =>
        some (String.mk (replaceFirst ['='] operator.data l0.data) :: rest)
      | [] => some []
    | some value =>
      some [(from_key.getD "None") ++ " " ++ operator ++ " " ++
        revert_value_scalar value]
    | none => some [(from_key.getD "None") ++ " " ++ operator ++ " None"]
  else if dictHasKey es "@type" then
    let value :=
      match dictGet es "@value" with
      | some (.vstr v) => v
      | _ => ""
    some [fkOr from_key value ++ " = " ++ value]
  else none
termination_by sizeOf es
decreasing_by
  · exact sizeOf_dictGet_lt h

end

/-- `revert(data)`: the joined text (depth `-1` at the root). -/
def revert (obj : PVal) : String :=
  String.intercalate "\n" (revertLines obj none none (-1))

/-! ## Helper lemmas for reasoning about `revert` -/

/-- A dict with neither an `@operator` nor an `@type` key is not special. -/
theorem revert_special_none (es : List (String × PVal)) (fk pk : Option String)
    (h1 : dictHasKey es "@operator" = false) (h2 : dictHasKey es "@type" = false) :
    revert_special es fk pk = none := by
  rw [revert_special]
  simp [h1, h2]

/-- Unfolding of `revertLines` on a non-special dict. -/
theorem revertLines_dict_plain (es : List (String × PVal)) (fk pk : Option String)
    (d : Int) (h : revert_special es fk pk = none) :
    revertLines (.vdict es) fk pk d =
      (if fkTruthy fk then
        [tabsFor d ++ (String.mk (replaceAll ['|'] [' '] (fk.getD "").data)) ++ " = " ++ String.mk [lbrace]]
      else if d > 0 then [tabsFor d ++ String.mk [lbrace]] else []) ++
      revertEntries es fk (d + 1) ++
      (if fkTruthy fk || d > 0 then [tabsFor d ++ String.mk [rbrace]] else []) := by
  rw [revertLines, h]

/-! ## Theorems for the claims -/

/-- **C3** — With an empty table, `@x = @[2+3]` stores a formula node with
result `5` and registers `x -> 5`, so that `@y = @[x*2]` in the same batch
resolves to `10`; moreover every float formula result is passed through
`round(·, 5)` before being stored (the resolver's float case applies
`round5`, whose output always has at most five decimal places). -/
theorem C3_formula_resolution :
    parse_text forced_list_keys [] "@x = @[2+3]\n@y = @[x*2]" =
      (some (.vdict
        [("@x", formulaNode "@[2+3]" (some (.vint 5))),
         ("@y", formulaNode "@[x*2]" (some (.vint 10)))]),
       [("x", .vint 5), ("y", .vint 10)]) ∧
    (∀ vars s,
      resolveFormula vars s =
        match py_eval vars (String.mk (substVariables vars
            (String.mk (rstripSet [']'] (lstripSet ['@', '['] s.data))).data)) with
        | some (.vfloat q) => some (.vfloat (round5 q))
        | r => r) ∧
    (∀ q : ℚ, ((round5 q) * 100000).den = 1) := by
  refine ⟨rfl, fun vars s => rfl, fun q => ?_⟩
  unfold round5
  rw [div_mul_cancel₀]
  · exact Rat.den_intCast _
  · norm_num

/-- **C4 (counterexample)** — The formula evaluator is *not* a restricted
arithmetic evaluator with no access to host functions: the Python builtin
`abs` is reachable (the source calls `eval(formula, None, variables)`, so
names resolve through the module's globals and the builtins), and the
formula `@[abs(0-7)]` evaluates to `7` instead of failing.  Under the
claim as stated this formula contains a function call, hence must fail and
yield an absent result. -/
theorem C4_cex_host_function_reachable :
    parse_text forced_list_keys [] "a = @[abs(0-7)]" =
      (some (.vdict [("a", formulaNode "@[abs(0-7)]" (some (.vint 7)))]),
       [("a", .vint 7)]) ∧
    resolveFormula [] "@[abs(0-7)]" = some (.vint 7) :=
  ⟨rfl, rfl⟩

/-- **C4 (amended)** — Formula evaluation first substitutes every known
variable as a whole word, then evaluates with Python's `eval` (variable
table as locals; other names resolve through the module's environment, so
builtins are reachable); on any evaluation failure the result is absent
(`None`) and parsing continues without raising: a file whose only line
holds an unevaluable formula still parses, storing an absent result and
leaving the table unchanged. -/
theorem C4_amended_eval_failure_absent :
    (∀ vars s,
      py_eval vars (String.mk (substVariables vars
          (String.mk (rstripSet [']'] (lstripSet ['@', '['] s.data))).data)) = none →
      resolveFormula vars s = none) ∧
    parse_text forced_list_keys [] "a = @[q]" =
      (some (.vdict [("a", formulaNode "@[q]" none)]), []) := by
  refine ⟨fun vars s h => ?_, rfl⟩
  rw [resolveFormula]
  simp only [h]

/-- Witness for `C4_amended_eval_failure_absent`: the unknown name `q`
fails to evaluate and the resolver yields `none`. -/
theorem C4_amended_eval_failure_absent_witness :
    resolveFormula [] "@[q]" = none :=
  C4_amended_eval_failure_absent.1 [] "@[q]" rfl

/-- **C7 (counterexample)** — The normalizer does *not* recognize
color-block syntax exactly for `TYPE ∈ {rgb, hsv, hls, hsv360}`:
`regex_color` accepts any word, so `color = foo { 10 20 30 }` is likewise
rewritten and parses to `{"color": ["foo", 10, 20, 30]}` instead of
leaving `foo` outside the list. -/
theorem C7_cex_any_word_recognized :
    parse_text forced_list_keys [] "color = foo \x7b 10 20 30 \x7d" =
      (some (.vdict [("color",
        .vlist [.vstr "foo", .vint 10, .vint 20, .vint 30])]), []) :=
  rfl

/-- **C7 (amended)** — `color = rgb { 10 20 30 }` parses to
`{"color": ["rgb", 10, 20, 30]}` (the normalizer accepts any word `TYPE`
in `key = TYPE { ... }`; the `{rgb, hsv, hls, hsv360}` restriction lives
in the serializer's color emission), and reverting that document re-emits
the color block `color rgb = { 10 20 30 }` (with the elements on their own
indented lines). -/
theorem C7_color_roundtrip :
    parse_text forced_list_keys [] "color = rgb \x7b 10 20 30 \x7d" =
      (some (.vdict [("color",
        .vlist [.vstr "rgb", .vint 10, .vint 20, .vint 30])]), []) ∧
    revert (.vdict [("color", .vlist [.vstr "rgb", .vint 10, .vint 20, .vint 30])]) =
      "color rgb = \x7b\n    10\n    20\n    30\n\x7d" := by
  refine ⟨rfl, ?_⟩
  rw [revert, revertLines_dict_plain _ _ _ _ (revert_special_none _ _ _ (by rfl) (by rfl))]
  rw [revertEntries, revertEntries, revertLines]
  simp only [revertItems, revertLines]
  rfl

/-- **C5 (counterexample)** — An unmatched close brace does not always
fail: `parse_text("}")` pops the root frame and, with no further line to
process, returns the empty document (the `IndexError` only fires when a
later line reads `nodes[-1]`). -/
theorem C5_cex_trailing_close_succeeds :
    parse_text forced_list_keys [] (String.mk [rbrace]) =
      (some (.vdict []), []) :=
  rfl

/-- **C5 (amended)** — More closes than opens cause a line-level parse
failure exactly when a further non-blank canonical line follows the close
that emptied the stack: once the stack is empty, interpreting any
non-blank line raises (`nodes[-1]` on the empty stack) and the file
returns `None`, as with `}}` or `}` followed by `a = 1`; an unmatched
close as the last non-blank line instead returns the document built so
far. -/
theorem C5_amended_underflow :
    (∀ (fl : List String) (vars locals : VarTable) (fin : Option PVal) (l : String),
      String.mk (stripWs l.data) ≠ "" →
      interpLine fl { stack := [], finished := fin, vars := vars, locals := locals } l =
        .error vars) ∧
    (parse_text forced_list_keys [] (String.mk [rbrace, '\n', rbrace])).1 = none ∧
    (parse_text forced_list_keys [] (String.mk (rbrace :: '\n' :: "a = 1".data))).1 = none ∧
    (parse_text forced_list_keys [] (String.mk [rbrace])).1 = some (.vdict []) := by
  refine ⟨fun fl vars locals fin l h => ?_, rfl, rfl, rfl⟩
  rw [interpLine]
  simp [h]

/-- Witness for `C5_amended_underflow`: a non-blank line after the stack
has been emptied raises. -/
theorem C5_amended_underflow_witness :
    interpLine [] { stack := [], finished := none, vars := [], locals := [] } "x" =
      .error [] :=
  C5_amended_underflow.1 [] [] [] none "x" (by decide)

/-- **C9** — A key whose lower-cased form is in the forced-list allow-list
is stored as a list already on its first occurrence: a scalar value is
wrapped as `[value]` (lines 165-167), an opened block is pushed in the
forced mode whose pop wraps it as `[item]` (lines 141-142); concretely,
with allow-list `["if"]`, `if = 1` parses to `{"if": [1]}` and an
`if = { a = 1 }` block to `{"if": [{"a": 1}]}`. -/
theorem C9_forced_list :
    (∀ (fl : List String) (st : PState) (f : Frame) (tl : List Frame)
        (key op v : String) (es : List (String × PVal)) (vv : PVal),
      f.container = .vdict es →
      dictHasKey es key = false →
      fl.contains (pyLower key) = true →
      pyEndsWith v (String.mk [lbrace]) = false →
      convertValue v = some vv →
      interpKVs fl st f tl key op v =
        .ok { st with stack :=
          { f with container := .vdict (dictSet es key (.vlist [vv])) } :: tl }) ∧
    (∀ (fl : List String) (st : PState) (f : Frame) (tl : List Frame)
        (key : String) (es : List (String × PVal)),
      f.container = .vdict es →
      dictHasKey es key = false →
      fl.contains (pyLower key) = true →
      interpBlockOpen fl st f tl key =
        .ok { st with stack :=
          { name := key, mode := .forcedKey key, container := .vdict [] } :: f :: tl }) ∧
    parse_text ["if"] [] "if = 1" =
      (some (.vdict [("if", .vlist [.vint 1])]), []) ∧
    parse_text ["if"] [] "if = \x7b\na = 1\n\x7d" =
      (some (.vdict [("if", .vlist [.vdict [("a", .vint 1)]])]), []) := by
  refine ⟨fun fl st f tl key op v es vv hc hk hf hv hcv => ?_,
          fun fl st f tl key es hc hk hf => ?_, rfl, rfl⟩
  · unfold interpKVs
    simp only [hv, Bool.false_eq_true, if_false, hcv, hc]
    unfold interpScalarDict
    simp only [hk, Bool.false_eq_true, if_false, hf, if_true]
  · unfold interpBlockOpen
    rw [hc]
    simp only [hk, Bool.false_eq_true, if_false, hf, if_true]

/-- Witness for `C9_forced_list`: the allow-list `["if"]` forces both the
scalar line and the block open at a concrete state. -/
theorem C9_forced_list_witness :
    interpKVs ["if"] (initState [])
        { name := "", mode := .root, container := .vdict [] } [] "if" "=" "1" =
      .ok { initState [] with stack :=
        { name := "", mode := .root,
          container := .vdict (dictSet [] "if" (.vlist [.vint 1])) } :: [] } ∧
    interpBlockOpen ["if"] (initState [])
        { name := "", mode := .root, container := .vdict [] } [] "if" =
      .ok { initState [] with stack :=
        { name := "if", mode := .forcedKey "if", container := .vdict [] } ::
          { name := "", mode := .root, container := .vdict [] } :: [] } :=
  ⟨C9_forced_list.1 ["if"] (initState [])
      { name := "", mode := .root, container := .vdict [] } [] "if" "=" "1" []
      (.vint 1) rfl rfl rfl rfl rfl,
   C9_forced_list.2.1 ["if"] (initState [])
      { name := "", mode := .root, container := .vdict [] } [] "if" [] rfl rfl rfl⟩

/-- **C10** — A falsy formula result (0, 0.0, or `None` after a failed
evaluation) is stored in the document as a formula node but registers
nothing in the variable table (line 219 `if result:`), even for an
`@`-prefixed key; in the concrete batch the keys `@z` (result `0`) and
`@w` (result `None`) stay unregistered, so the later lines `k = @z` and
`m = @w` resolve them to `None`. -/
theorem C10_falsy_formula_not_registered :
    (∀ (fl : List String) (st : PState) (f : Frame) (tl : List Frame)
        (key v : String) (es : List (String × PVal)) (s : String),
      f.container = .vdict es →
      dictHasKey es key = false →
      fl.contains (pyLower key) = false →
      pyEndsWith v (String.mk [lbrace]) = false →
      convertValue v = some (.vstr s) →
      (pyStartsWith s "@[" && pyEndsWith s "]") = true →
      pyTruthy ((resolveFormula st.vars s).getD .vnone) = false →
      interpKVs fl st f tl key "=" v =
        .ok { st with stack :=
          { f with container := PVal.vdict (dictSet es key (formulaNode s (resolveFormula st.vars s))) } :: tl }) ∧
    parse_text forced_list_keys [] "@z = @[0*5]\n@w = @[q]\nk = @z\nm = @w" =
      (some (.vdict
        [("@z", formulaNode "@[0*5]" (some (.vint 0))),
         ("@w", formulaNode "@[q]" none),
         ("k", .vdict [("@type", .vstr "variable"), ("@value", .vstr "@z"),
                       ("@result", .vnone)]),
         ("m", .vdict [("@type", .vstr "variable"), ("@value", .vstr "@w"),
                       ("@result", .vnone)])]),
       []) := by
  refine ⟨fun fl st f tl key v es s hc hk hf hv hcv hsf hfalsy => ?_, rfl⟩
  unfold interpKVs
  simp only [hv, Bool.false_eq_true, if_false, hcv, hc]
  unfold interpScalarDict
  simp only [hk, Bool.false_eq_true, if_false, hf, ne_eq, not_true_eq_false, if_true, hsf]
  cases hr : resolveFormula st.vars s with
  | none => rfl
  | some r =>
    rw [hr] at hfalsy
    simp only [Option.getD_some] at hfalsy
    simp only [hfalsy, Bool.false_eq_true, if_false]

/-- Witness for `C10_falsy_formula_not_registered`: the unevaluable
formula `@[q]` under the key `@w` stores an absent result and leaves a
concrete table unchanged. -/
theorem C10_falsy_formula_not_registered_witness :
    interpKVs [] (initState [])
        { name := "", mode := .root, container := .vdict [] } [] "@w" "=" "@[q]" =
      .ok { initState [] with stack :=
        { name := "", mode := .root,
          container := PVal.vdict (dictSet [] "@w" (formulaNode "@[q]" (resolveFormula [] "@[q]"))) } :: [] } :=
  C10_falsy_formula_not_registered.1 [] (initState [])
    { name := "", mode := .root, container := .vdict [] } [] "@w" "@[q]" []
    "@[q]" rfl rfl rfl rfl rfl rfl rfl

theorem uint32_le_toNat {a b : UInt32} (h : a ≤ b) : a.toNat ≤ b.toNat :=
  BitVec.le_def.mp (UInt32.le_def.mp h)

theorem char_toNat_inj {c d : Char} (h : c.toNat = d.toNat) : c = d :=
  Char.ext (UInt32.toNat.inj h)

theorem isDigit_toNat {c : Char} (h : c.isDigit = true) :
    48 ≤ c.toNat ∧ c.toNat ≤ 57 := by
  simp [Char.isDigit] at h
  obtain ⟨h1, h2⟩ := h
  exact ⟨uint32_le_toNat h1, uint32_le_toNat h2⟩

theorem isAlpha_toNat {c : Char} (h : c.isAlpha = true) :
    (65 ≤ c.toNat ∧ c.toNat ≤ 90) ∨ (97 ≤ c.toNat ∧ c.toNat ≤ 122) := by
  simp [Char.isAlpha, Char.isUpper, Char.isLower] at h
  rcases h with ⟨h1, h2⟩ | ⟨h1, h2⟩
  · exact Or.inl ⟨uint32_le_toNat h1, uint32_le_toNat h2⟩
  · exact Or.inr ⟨uint32_le_toNat h1, uint32_le_toNat h2⟩


/-- The character class of the flat fragment: letters, digits, `-`. -/
def plainChar (c : Char) : Bool := c.isAlpha || c.isDigit || c == '-'

theorem plainChar_toNat {c : Char} (h : plainChar c = true) :
    (65 ≤ c.toNat ∧ c.toNat ≤ 90) ∨ (97 ≤ c.toNat ∧ c.toNat ≤ 122) ∨
    (48 ≤ c.toNat ∧ c.toNat ≤ 57) ∨ c.toNat = 45 := by
  unfold plainChar at h
  rcases Bool.or_eq_true_iff.mp h with h' | hdash
  · rcases Bool.or_eq_true_iff.mp h' with ha | hd
    · rcases isAlpha_toNat ha with h1 | h1
      · exact Or.inl h1
      · exact Or.inr (Or.inl h1)
    · exact Or.inr (Or.inr (Or.inl (isDigit_toNat hd)))
  · have : c = '-' := beq_iff_eq.mp hdash
    subst this
    exact Or.inr (Or.inr (Or.inr rfl))

theorem plainChar_ne {c : Char} (h : plainChar c = true) (t : Char)
    (ht : t.toNat ≠ 45 ∧ (t.toNat < 48 ∨ (57 < t.toNat ∧ t.toNat < 65) ∨
      (90 < t.toNat ∧ t.toNat < 97) ∨ 122 < t.toNat)) : c ≠ t := by
  intro he
  subst he
  rcases plainChar_toNat h with h1 | h1 | h1 | h1 <;> omega

theorem plainChar_not_op {c : Char} (h : plainChar c = true) :
    isOpChar c = false := by
  unfold isOpChar
  simp only [Bool.or_eq_false_iff, beq_eq_false_iff_ne]
  exact ⟨⟨⟨plainChar_ne h '!' (by decide), plainChar_ne h '<' (by decide)⟩,
    plainChar_ne h '=' (by decide)⟩, plainChar_ne h '>' (by decide)⟩

theorem alpha_head_ne {a : Char} (h : a.isAlpha = true) (t : Char)
    (ht : t.toNat < 65 ∨ (90 < t.toNat ∧ t.toNat < 97) ∨ 122 < t.toNat) : a ≠ t := by
  intro he
  subst he
  rcases isAlpha_toNat h with ⟨h1, h2⟩ | ⟨h1, h2⟩ <;> omega

/-- The text after `regex_inline.sub`: every line gains a newline, the
last included. -/
def dbl : List (List Char) → List Char
  | [] => []
  | [l] => l ++ ['\n']
  | l :: ls => l ++ '\n' :: '\n' :: dbl ls

/-- One canonical flat line: an alphabetic key, ` = `, a plain value. -/
def GoodLineP (l : List Char) : Prop :=
  ∃ k w, l = k ++ ' ' :: '=' :: ' ' :: w ∧ k ≠ [] ∧ k.all Char.isAlpha = true ∧
    w ≠ [] ∧ w.all plainChar = true

theorem tryValuesAt_nil : tryValuesAt [] = none := rfl

theorem dbl_mem {c : Char} : ∀ {ls : List (List Char)}, c ∈ dbl ls →
    c = '\n' ∨ ∃ l ∈ ls, c ∈ l := by
  intro ls
  induction ls with
  | nil => intro h; simp [dbl] at h
  | cons l rest ih =>
    intro h
    cases rest with
    | nil =>
      rw [show dbl [l] = l ++ ['\n'] from rfl] at h
      rcases List.mem_append.mp h with h1 | h1
      · exact Or.inr ⟨l, List.mem_cons_self l [], h1⟩
      · simp only [List.mem_cons, List.not_mem_nil, or_false] at h1
        exact Or.inl h1
    | cons l2 rest2 =>
      rw [show dbl (l :: l2 :: rest2) = l ++ '\n' :: '\n' :: dbl (l2 :: rest2) from rfl] at h
      rcases List.mem_append.mp h with h1 | h1
      · exact Or.inr ⟨l, List.mem_cons_self l _, h1⟩
      · simp only [List.mem_cons] at h1
        rcases h1 with rfl | rfl | h2
        · exact Or.inl rfl
        · exact Or.inl rfl
        · rcases ih h2 with h3 | ⟨l', hl', hc⟩
          · exact Or.inl h3
          · exact Or.inr ⟨l', List.mem_cons_of_mem l hl', hc⟩

theorem goodLine_no_underscore {l : List Char} (h : GoodLineP l) : '_' ∉ l := by
  obtain ⟨k, w, rfl, hk, hka, hw, hwp⟩ := h
  intro hm
  rcases List.mem_append.mp hm with hm1 | hm2
  · rw [List.all_eq_true] at hka
    exact alpha_head_ne (hka '_' hm1) '_' (by decide) rfl
  · simp only [List.mem_cons] at hm2
    rcases hm2 with h1 | h1 | h1 | h1
    · exact absurd h1 (by decide)
    · exact absurd h1 (by decide)
    · exact absurd h1 (by decide)
    · rw [List.all_eq_true] at hwp
      exact plainChar_ne (hwp '_' h1) '_' (by decide) rfl

end CKParser
